import Mathlib

/-!
Verification development for the hass-tesla-ble repository.

The first part embeds the glue code that exists in the repository
(`src/config.rs`, `src/mqtt.rs`, `src/main.rs`, `src/bluetooth.rs`) as pure
Lean functions.  Effectful seams (file system reads, the MQTT broker, the
Tokio event loop, panics via `expect`) are made explicit: fallible
collaborators are passed in as `Except` values or functions, emitted log
lines are returned as data, and a panic is a `Terminated` outcome.

The second part models the secure command channel described by the design
document (wire codec, session counters, sign/verify, transport framer).
That code does not exist in the repository yet, so those definitions are
modelled from the specification text and are marked as such.
-/

namespace HassTeslaBle

/-- MQTT section of the configuration (struct `MqttConfig` in `src/config.rs`).
The `port` field uses rumqttc's u16 range; it is carried as `Nat` here since no
arithmetic is performed on it. -/
structure MqttConfig where
  host : String
  port : Nat
  username : Option String
  password : Option String
  discovery_prefix : String
deriving Repr, DecidableEq

/-- Bluetooth section of the configuration (struct `BluetoothConfig` in `src/config.rs`). -/
structure BluetoothConfig where
  adapter : String
  mode : String
deriving Repr, DecidableEq

/-- Vehicle section of the configuration (struct `VehicleConfig` in `src/config.rs`). -/
structure VehicleConfig where
  vin : String
deriving Repr, DecidableEq

/-- Whole configuration (struct `Config` in `src/config.rs`). -/
structure Config where
  mqtt : MqttConfig
  bluetooth : BluetoothConfig
  vehicle : VehicleConfig
deriving Repr, DecidableEq

/-- Serde default for the `port` field (`default_port` in `src/config.rs`). -/
def default_port : Nat := 1883

/-- Serde default for the `discovery_prefix` field (`default_discovery_prefix`
in `src/config.rs`). -/
def default_discovery_prefix : String := "homeassistant"

/-- Raw MQTT section of a JSON document before serde processing: each field is
`some v` when present in the document and `none` when absent. -/
structure RawMqttConfig where
  host : Option String
  port : Option Nat
  username : Option String
  password : Option String
  discovery_prefix : Option String
deriving Repr, DecidableEq

/-- Raw bluetooth section of a JSON document before serde processing. -/
structure RawBluetoothConfig where
  adapter : Option String
  mode : Option String
deriving Repr, DecidableEq

/-- Raw vehicle section of a JSON document before serde processing. -/
structure RawVehicleConfig where
  vin : Option String
deriving Repr, DecidableEq

/-- Raw top-level JSON document before serde processing. -/
structure RawConfig where
  mqtt : Option RawMqttConfig
  bluetooth : Option RawBluetoothConfig
  vehicle : Option RawVehicleConfig
deriving Repr, DecidableEq

/-- Errors produced by `load_config`: an I/O failure reading the file, or a
serde deserialization failure. -/
inductive ConfigError
  | IoError (msg : String)
  | JsonError (msg : String)
deriving Repr, DecidableEq

/-- Serde deserialization of the `MqttConfig` struct: `host` is required,
`port` and `discovery_prefix` fall back to their declared defaults, `username`
and `password` default to `None` (the `#[serde(default)]` attributes in
`src/config.rs`). -/
def parseMqttConfig (r : RawMqttConfig) : Except ConfigError MqttConfig :=
  match r.host with
  | none => .error (.JsonError "missing field host")
  | some h =>
      .ok { host := h
            port := r.port.getD default_port
            username := r.username
            password := r.password
            discovery_prefix := (RawMqttConfig.discovery_prefix r).getD default_discovery_prefix }

/-- Serde deserialization of the `BluetoothConfig` struct: both fields required. -/
def parseBluetoothConfig (r : RawBluetoothConfig) : Except ConfigError BluetoothConfig :=
  match r.adapter with
  | none => .error (.JsonError "missing field adapter")
  | some a =>
      match r.mode with
      | none => .error (.JsonError "missing field mode")
      | some m => .ok { adapter := a, mode := m }

/-- Serde deserialization of the `VehicleConfig` struct: `vin` required. -/
def parseVehicleConfig (r : RawVehicleConfig) : Except ConfigError VehicleConfig :=
  match r.vin with
  | none => .error (.JsonError "missing field vin")
  | some v => .ok { vin := v }

/-- Serde deserialization of the whole `Config` struct: all three sections
required, each deserialized by its own parser. -/
def parseConfig (r : RawConfig) : Except ConfigError Config :=
  match r.mqtt with
  | none => .error (.JsonError "missing field mqtt")
  | some rm =>
    match parseMqttConfig rm with
    | .error e => .error e
    | .ok m =>
      match r.bluetooth with
      | none => .error (.JsonError "missing field bluetooth")
      | some rb =>
        match parseBluetoothConfig rb with
        | .error e => .error e
        | .ok b =>
          match r.vehicle with
          | none => .error (.JsonError "missing field vehicle")
          | some rv =>
            match parseVehicleConfig rv with
            | .error e => .error e
            | .ok v => .ok { mqtt := m, bluetooth := b, vehicle := v }

/-- The `load_config` function in `src/config.rs`.  Reading and lexing
`/config/options.json` is the explicit seam `content`: `.error e` models a
file-system read failure, `.ok none` a document that is not valid JSON, and
`.ok (some raw)` a JSON document presenting the given optional fields to
serde. -/
def load_config (content : Except String (Option RawConfig)) : Except ConfigError Config :=
  match content with
  | .error e => .error (.IoError e)
  | .ok none => .error (.JsonError "invalid JSON")
  | .ok (some raw) => parseConfig raw

/-- Connection options assembled by `MqttClient::new` in `src/mqtt.rs`:
client id, broker address, and the optional credentials set by
`set_credentials`. -/
structure MqttOptions where
  client_id : String
  host : String
  port : Nat
  credentials : Option (String × String)
deriving Repr, DecidableEq

/-- Option-building part of `MqttClient::new` (`src/mqtt.rs` lines 14 to 19):
`MqttOptions::new("hass-tesla-ble", host, port)` followed by
`set_credentials(username, password.as_deref().unwrap_or(""))` exactly when
`config.username` is `Some`. -/
def buildMqttOptions (config : MqttConfig) : MqttOptions :=
  let base : MqttOptions :=
    { client_id := "hass-tesla-ble", host := config.host, port := config.port,
      credentials := none }
  match config.username with
  | some username => { base with credentials := some (username, config.password.getD "") }
  | none => base

/-- Incoming MQTT packets as distinguished by the event loop in
`src/mqtt.rs`: a `ConnAck` or anything else. -/
inductive MqttIncoming
  | ConnAck
  | Other (desc : String)
deriving Repr, DecidableEq

/-- Action taken by one iteration of the spawned MQTT event loop in
`src/mqtt.rs` (lines 25 to 40). -/
inductive LoopAction
  | logInfoConnected
  | logDebugEvent (desc : String)
  | printToStderrAndBreak (e : String)
deriving Repr, DecidableEq

/-- Observable outcome of one iteration of the spawned MQTT event loop:
the action taken, whether the loop exits, and the error value (if any) that is
returned or sent to some caller as a typed result. -/
structure EventLoopStepResult where
  action : LoopAction
  breaksLoop : Bool
  propagatedError : Option String
deriving Repr, DecidableEq

/-- One iteration of the spawned MQTT event loop (`src/mqtt.rs` lines 25 to 40):
`Ok(ConnAck)` logs at info level, any other `Ok` logs at debug level, and
`Err(e)` prints the error to stderr with `eprintln` and breaks out of the
loop.  The loop body returns nothing and holds no channel back to a caller,
so no branch carries a propagated error. -/
def eventLoopStep (polled : Except String MqttIncoming) : EventLoopStepResult :=
  match polled with
  | .ok .ConnAck => { action := .logInfoConnected, breaksLoop := false, propagatedError := none }
  | .ok (.Other d) => { action := .logDebugEvent d, breaksLoop := false, propagatedError := none }
  | .error e =>
      { action := .printToStderrAndBreak e, breaksLoop := true, propagatedError := none }

/-- MQTT quality-of-service levels used in `src/mqtt.rs`. -/
inductive QoS
  | AtMostOnce
  | AtLeastOnce
  | ExactlyOnce
deriving Repr, DecidableEq

/-- One call to `AsyncClient::publish` as issued by the publishing methods of
`MqttClient`. -/
structure PublishCall where
  topic : String
  qos : QoS
  retain : Bool
  payload : String
deriving Repr, DecidableEq

/-- One call to `AsyncClient::subscribe` as issued by
`subscribe_to_commands`. -/
structure SubscribeCall where
  topic : String
  qos : QoS
deriving Repr, DecidableEq

/-- Topic string assembled inside `MqttClient::publish_discovery`
(`src/mqtt.rs` lines 59 to 62): the format string
"prefix/component/name/config". -/
def discoveryTopic (p component name : String) : String :=
  p ++ "/" ++ component ++ "/" ++ name ++ "/config"

/-- The `MqttClient::publish_discovery` method (`src/mqtt.rs` lines 53 to 73):
builds the discovery topic from the configured discovery prefix and its
`component` and `name` arguments, serializes the config value (modelled as the
already-serialized string `payloadJson`), and publishes at `AtLeastOnce`
without retain. -/
def publish_discovery (config : MqttConfig) (component name payloadJson : String) :
    PublishCall :=
  { topic := discoveryTopic (MqttConfig.discovery_prefix config) component name,
    qos := .AtLeastOnce, retain := false, payload := payloadJson }

/-- The `MqttClient::publish_state` method (`src/mqtt.rs` lines 76 to 86):
publishes the caller-supplied topic and payload at `AtLeastOnce` without
retain. -/
def publish_state (topic payload : String) : PublishCall :=
  { topic := topic, qos := .AtLeastOnce, retain := false, payload := payload }

/-- The `MqttClient::subscribe_to_commands` method (`src/mqtt.rs` lines 89 to 92):
subscribes to the caller-supplied topic at `AtMostOnce`. -/
def subscribe_to_commands (topic : String) : SubscribeCall :=
  { topic := topic, qos := .AtMostOnce }

/-- Outcome of running `main` (`src/main.rs`) up to its shutdown wait:
either some `.expect` call panicked with the given message and the process
terminated, or startup completed and the process is waiting for ctrl-c. -/
inductive ProcessOutcome
  | Terminated (panicMsg : String)
  | WaitingForShutdown (vin : String) (mqttHost : String) (adapterName : String)
deriving Repr, DecidableEq

/-- The startup sequence of `main` in `src/main.rs`: `load_config().expect(...)`,
then `MqttClient::new(config.mqtt).await.expect(...)`, then
`BleAdapter::new(config.bluetooth.adapter).await.expect(...)`, then waiting for
the shutdown signal.  The three fallible collaborators are passed in as the
result of the config load and as functions producing the MQTT client options
and the BLE adapter name; each `.expect` maps an error to process
termination. -/
def mainStartup (configResult : Except ConfigError Config)
    (mqttNew : MqttConfig → Except String MqttOptions)
    (bleNew : String → Except String String) : ProcessOutcome :=
  match configResult with
  | .error _ => .Terminated "Failed to load configuration"
  | .ok config =>
    match mqttNew config.mqtt with
    | .error _ => .Terminated "Failed to initialize MQTT client"
    | .ok opts =>
      match bleNew config.bluetooth.adapter with
      | .error _ => .Terminated "Failed to initialize BLE adapter"
      | .ok adapterName =>
          .WaitingForShutdown config.vehicle.vin opts.host adapterName

/-- The `BleAdapter` struct of `src/bluetooth.rs`: an opaque adapter handle and
the adapter name. -/
structure BleAdapter where
  adapter : Unit
  name : String
deriving Repr, DecidableEq

/-- The `BleAdapter::scan_for_devices` method (`src/bluetooth.rs` lines 35 to 39):
logs one info line and returns `Ok(())`; the adapter state is untouched.  The
returned triple is (adapter after the call, log lines emitted, result). -/
def scan_for_devices (a : BleAdapter) : BleAdapter × List String × Except String Unit :=
  (a, ["Starting BLE device scan..."], .ok ())

/-- The `BleAdapter::connect_to_device` method (`src/bluetooth.rs` lines 42 to 46):
logs one info line naming the address and returns `Ok(())`; the adapter state
is untouched. -/
def connect_to_device (a : BleAdapter) (address : String) :
    BleAdapter × List String × Except String Unit :=
  (a, ["Connecting to device: " ++ address], .ok ())

/-- Modelled from the spec: destination domains of an envelope, section 3
("a destination domain (e.g., access-control unit vs. infotainment unit)").
The secure-channel core is absent from the repository sources (the spec
states the present repository implements none of it), so this and the
following core definitions are built from the specification text. -/
inductive Domain
  | AccessControl
  | Infotainment
deriving Repr, DecidableEq

/-- Modelled from the spec: the routing-header byte identifying a domain. -/
def Domain.tag : Domain → Nat
  | .AccessControl => 0
  | .Infotainment => 1

/-- Modelled from the spec: recovering a domain from its routing-header byte;
an unknown domain tag has no interpretation (section 4.1). -/
def domainOfTag : Nat → Option Domain
  | 0 => some .AccessControl
  | 1 => some .Infotainment
  | _ => none

/-- Modelled from the spec: the error taxonomy of section 7. -/
inductive CoreError
  | MalformedMessage
  | AuthenticationFailed
  | ReplayRejected
  | HandshakeTimeout
  | LinkError
  | Timeout
deriving Repr, DecidableEq

/-- Modelled from the spec: Wire Codec `encode` (section 4.1).  A logical
command (domain, operation, parameters) becomes routing header (domain tag),
operation byte, a length field for the parameter bytes, then the parameter
bytes.  The encoding is a deterministic function of its input. -/
def encode (domain : Domain) (operation : Nat) (parameters : List Nat) : List Nat :=
  Domain.tag domain :: operation :: parameters.length :: parameters

/-- Modelled from the spec: Wire Codec `decode` (section 4.1), the inverse of
`encode`; fails with `MalformedMessage` on truncated input, an unknown domain
tag, or a length field inconsistent with the actual remaining bytes. -/
def decode (bytes : List Nat) : Except CoreError (Domain × Nat × List Nat) :=
  match bytes with
  | dtag :: operation :: len :: rest =>
    match domainOfTag dtag with
    | none => .error .MalformedMessage
    | some domain =>
      if rest.length = len then .ok (domain, operation, rest)
      else .error .MalformedMessage
  | _ => .error .MalformedMessage

/-- Modelled from the spec: Session attributes needed by the signer/verifier
(section 3): derived send/receive keys, the outgoing counter, and the
last-known peer counter for replay rejection.  Key material is abstracted to a
number. -/
structure Session where
  sendKey : Nat
  recvKey : Nat
  outCounter : Nat
  lastPeerCounter : Nat
deriving Repr, DecidableEq

/-- Modelled from the spec: a signed message as produced by `sign`
(section 4.3): routing header, payload, the counter value used, and the
authentication tag. -/
structure SignedMsg where
  header : List Nat
  payload : List Nat
  counter : Nat
  tag : Nat
deriving Repr, DecidableEq

/-- Modelled from the spec: the authentication tag over
(routing header, payload, counter) under a key (section 4.3).  The spec
leaves the tag algorithm open (section 9), so an arbitrary concrete mixing
function stands in for it. -/
def authTag (key : Nat) (header payload : List Nat) (counter : Nat) : Nat :=
  ((header.foldl (fun a b => a * 31 + b + 1) 7) * 1009 +
    (payload.foldl (fun a b => a * 31 + b + 1) 7)) * 1013 + counter * 3 + key

/-- Modelled from the spec: `sign(session, envelope)` (section 4.3):
increments the session's outgoing counter, computes the tag over
(header, payload, counter) with the send key, and attaches tag and counter. -/
def sign (s : Session) (header payload : List Nat) : Session × SignedMsg :=
  let c := s.outCounter + 1
  ({ s with outCounter := c },
   { header := header, payload := payload, counter := c,
     tag := authTag s.sendKey header payload c })

/-- Modelled from the spec: signing a whole sequence of messages on one
session, threading the session state through. -/
def signAll (s : Session) : List (List Nat × List Nat) → Session × List SignedMsg
  | [] => (s, [])
  | (h, p) :: rest =>
    let r := sign s h p
    let rr := signAll r.1 rest
    (rr.1, r.2 :: rr.2)

/-- Modelled from the spec: `verify(session, signed_bytes)` (section 4.3):
fails with `ReplayRejected` when the embedded counter is not strictly greater
than the last accepted counter for the session, with `AuthenticationFailed`
when the recomputed tag does not match; on success returns the payload and the
session with the peer counter advanced to the accepted value. -/
def verify (s : Session) (m : SignedMsg) : Except CoreError (List Nat × Session) :=
  if m.counter ≤ s.lastPeerCounter then .error .ReplayRejected
  else if m.tag = authTag s.recvKey m.header m.payload m.counter then
    .ok (m.payload, { s with lastPeerCounter := m.counter })
  else .error .AuthenticationFailed

/-- Modelled from the spec: the dispatcher's handling of one inbound signed
message (sections 4.3 and 4.5): the message is verified once; on failure the
error is reported to the caller as the result, the session is left exactly as
it was, and the verification is not retried; on success the advanced session
and the payload are returned. -/
def processInbound (s : Session) (m : SignedMsg) : Session × Except CoreError (List Nat) :=
  match verify s m with
  | .error e => (s, .error e)
  | .ok (p, s') => (s', .ok p)

/-- Modelled from the spec: one fragment produced by the Transport Framer
(section 4.4): a fragment index, the total message length on the first
fragment only, and the carried bytes. -/
structure Fragment where
  index : Nat
  total : Option Nat
  data : List Nat
deriving Repr, DecidableEq

/-- Splitting a byte sequence into consecutive pieces of at most `maxSize`
bytes.  The recursion is driven by a fuel argument so that the function
computes by reduction; `chunk` below instantiates the fuel with the length of
the list, which suffices whenever `maxSize` is positive. -/
def chunkFuel (maxSize : Nat) : Nat → List Nat → List (List Nat)
  | 0, _ => []
  | _, [] => []
  | fuel + 1, b :: bs => (b :: bs).take maxSize :: chunkFuel maxSize fuel ((b :: bs).drop maxSize)

/-- Modelled from the spec: cutting a message into maximal pieces that fit the
transport's maximum single-write size (section 4.4). -/
def chunk (maxSize : Nat) (bytes : List Nat) : List (List Nat) :=
  chunkFuel maxSize bytes.length bytes

/-- Pieces of a message, with the degenerate empty message carried as one
empty piece so that every message yields at least one fragment. -/
def chunksOf (maxSize : Nat) (bytes : List Nat) : List (List Nat) :=
  match bytes with
  | [] => [[]]
  | b :: bs => chunk maxSize (b :: bs)

/-- Attaching fragment indices to pieces, starting at index `i`; the fragment
with index 0 declares the total message length (section 4.4). -/
def tagFrags (total : Nat) : Nat → List (List Nat) → List Fragment
  | _, [] => []
  | i, d :: ds =>
    { index := i, total := if i = 0 then some total else none, data := d }
      :: tagFrags total (i + 1) ds

/-- Modelled from the spec: the Transport Framer's fragmenting direction
(section 4.4): split the bytes by the maximum single-write size and attach a
fragment index to each piece, with the total message length declared on the
first fragment. -/
def fragmentMsg (maxSize : Nat) (bytes : List Nat) : List Fragment :=
  tagFrags bytes.length 0 (chunksOf maxSize bytes)

/-- The buffered fragment with a given index, if any. -/
def findFrag (frags : List Fragment) (i : Nat) : Option Fragment :=
  frags.find? (fun f => f.index == i)

/-- Collecting the data of the fragments with indices 0 to n-1, in index
order; `none` when any expected index is absent from the buffer. -/
def gather (frags : List Fragment) : Nat → Option (List (List Nat))
  | 0 => some []
  | n + 1 =>
    match gather frags n, findFrag frags n with
    | some acc, some f => some (acc ++ [f.data])
    | _, _ => none

/-- Modelled from the spec: the Transport Framer's reassembly direction
(section 4.4): fragments accumulate by index; reassembly completes only once
the first fragment (declaring the total) is present, every expected index is
present, and the accumulated length matches the declared total.  Otherwise
nothing is delivered upstream. -/
def reassemble (frags : List Fragment) : Option (List Nat) :=
  match findFrag frags 0 with
  | none => none
  | some f0 =>
    match f0.total with
    | none => none
    | some total =>
      match gather frags frags.length with
      | none => none
      | some pieces =>
        if pieces.flatten.length = total then some pieces.flatten else none

/-- Counters attached by `signAll` to a message sequence: consecutive values
starting just above the session's outgoing counter. -/
theorem signAll_counters (msgs : List (List Nat × List Nat)) :
    ∀ s : Session, ((signAll s msgs).2).map SignedMsg.counter
      = List.range' (s.outCounter + 1) msgs.length := by
  induction msgs with
  | nil => intro s; rfl
  | cons hd tl ih =>
    intro s
    obtain ⟨h, p⟩ := hd
    rw [List.length_cons, List.range'_succ]
    simpa [signAll, sign] using ih { s with outCounter := s.outCounter + 1 }

/-- C1: on one session, the counters of every sequence of successively signed
messages are strictly increasing, and the verifier rejects any message whose
embedded counter is at most the last accepted peer counter with
`ReplayRejected`. -/
theorem signed_counters_strictly_increasing_and_replay_rejected
    (s : Session) (msgs : List (List Nat × List Nat)) (m : SignedMsg)
    (hm : m.counter ≤ s.lastPeerCounter) :
    List.Pairwise (· < ·) (((signAll s msgs).2).map SignedMsg.counter) ∧
    verify s m = .error .ReplayRejected := by
  constructor
  · rw [signAll_counters]
    exact List.pairwise_lt_range' (s.outCounter + 1) msgs.length
  · simp [verify, hm]

/-- C1 witness: three messages signed on a concrete session carry strictly
increasing counters, and a replayed counter value is rejected. -/
theorem signed_counters_replay_witness :
    List.Pairwise (· < ·)
      (((signAll ⟨5, 5, 0, 4⟩ [([0], [1]), ([0], [2]), ([0], [3])]).2).map SignedMsg.counter) ∧
    verify ⟨5, 5, 0, 4⟩ ⟨[1], [2], 3, 99⟩ = .error .ReplayRejected :=
  signed_counters_strictly_increasing_and_replay_rejected
    ⟨5, 5, 0, 4⟩ [([0], [1]), ([0], [2]), ([0], [3])] ⟨[1], [2], 3, 99⟩ (by decide)

/-- C2: decoding the encoding of any logical command reproduces the command
exactly, and decoding fails with `MalformedMessage` on truncated input, on
over-length input, and on an unknown domain tag. -/
theorem codec_roundtrip_and_malformed
    (domain : Domain) (operation : Nat) (parameters : List Nat)
    (extra : Nat) (t : Nat) (rest : List Nat) (ht : domainOfTag t = none) :
    decode (encode domain operation parameters) = .ok (domain, operation, parameters) ∧
    decode ((encode domain operation parameters).dropLast) = .error .MalformedMessage ∧
    decode (encode domain operation parameters ++ [extra]) = .error .MalformedMessage ∧
    decode (t :: rest) = .error .MalformedMessage := by
  have htag : ∀ d : Domain, domainOfTag (Domain.tag d) = some d := by
    intro d; cases d <;> rfl
  refine ⟨?_, ?_, ?_, ?_⟩
  · simp [encode, decode, htag]
  · cases parameters with
    | nil => cases domain <;> rfl
    | cons b bs =>
      have hlen : ((b :: bs).dropLast).length ≠ (b :: bs).length := by
        simp [List.length_dropLast]
      simp [encode, decode, htag, List.dropLast, hlen]
  · have hlen : (parameters ++ [extra]).length ≠ parameters.length := by simp
    simp [encode, decode, htag, hlen]
  · match rest with
    | [] => rfl
    | [a] => rfl
    | a :: b :: r => simp [decode, ht]

/-- C2 witness: the round-trip and the three malformed cases at a concrete
command, a concrete extra byte, and the concrete unknown domain tag 2. -/
theorem codec_roundtrip_witness :
    decode (encode .AccessControl 5 [7, 8]) = .ok (.AccessControl, 5, [7, 8]) ∧
    decode ((encode .AccessControl 5 [7, 8]).dropLast) = .error .MalformedMessage ∧
    decode (encode .AccessControl 5 [7, 8] ++ [9]) = .error .MalformedMessage ∧
    decode (2 :: [0, 0, 0]) = .error .MalformedMessage :=
  codec_roundtrip_and_malformed .AccessControl 5 [7, 8] 9 2 [0, 0, 0] rfl

/-- C3: when verification of an inbound message fails (authentication failure
or replay rejection), processing leaves the session, and in particular its
counters, exactly as they were, and reports the error to the caller as the
result of the single, unretried verification. -/
theorem failed_verify_leaves_session_unchanged
    (s : Session) (m : SignedMsg) (e : CoreError) (h : verify s m = .error e) :
    processInbound s m = (s, .error e) := by
  simp [processInbound, h]

/-- C3 witness: a signed message with one tampered payload byte fails
verification with `AuthenticationFailed` and the session is returned
unchanged. -/
theorem failed_verify_witness :
    verify ⟨5, 5, 0, 0⟩ ⟨[1], [3], 1, authTag 5 [1] [2] 1⟩ = .error .AuthenticationFailed ∧
    processInbound ⟨5, 5, 0, 0⟩ ⟨[1], [3], 1, authTag 5 [1] [2] 1⟩
      = (⟨5, 5, 0, 0⟩, .error .AuthenticationFailed) := by
  have h : verify ⟨5, 5, 0, 0⟩ ⟨[1], [3], 1, authTag 5 [1] [2] 1⟩
      = .error .AuthenticationFailed := by
    simp [verify, authTag]
  exact ⟨h, failed_verify_leaves_session_unchanged ⟨5, 5, 0, 0⟩
    ⟨[1], [3], 1, authTag 5 [1] [2] 1⟩ .AuthenticationFailed h⟩

/-- C5 counterexample: a configuration load failure at startup terminates the
process: `main` unwraps `load_config()` with `expect`, which panics, so the
outcome is `Terminated` rather than any non-fatal handling. -/
theorem config_load_failure_terminates_process :
    mainStartup (.error (.IoError "No such file or directory"))
        (fun c => .ok (buildMqttOptions c)) (fun a => .ok a)
      = .Terminated "Failed to load configuration" := rfl

/-- C5 (amended): every startup error is fatal to the process: a configuration
load failure, a message-bus client initialization failure, and a BLE adapter
initialization failure each terminate the process with the corresponding
panic message. -/
theorem startup_errors_are_fatal
    (e : ConfigError)
    (mq0 : MqttConfig → Except String MqttOptions) (bl0 : String → Except String String)
    (c1 : Config) (mq1 : MqttConfig → Except String MqttOptions)
    (bl1 : String → Except String String) (me : String)
    (c2 : Config) (mq2 : MqttConfig → Except String MqttOptions)
    (bl2 : String → Except String String) (o : MqttOptions) (be : String)
    (h1 : mq1 c1.mqtt = .error me)
    (h2 : mq2 c2.mqtt = .ok o) (h3 : bl2 c2.bluetooth.adapter = .error be) :
    mainStartup (.error e) mq0 bl0 = .Terminated "Failed to load configuration" ∧
    mainStartup (.ok c1) mq1 bl1 = .Terminated "Failed to initialize MQTT client" ∧
    mainStartup (.ok c2) mq2 bl2 = .Terminated "Failed to initialize BLE adapter" := by
  refine ⟨rfl, ?_, ?_⟩
  · simp [mainStartup, h1]
  · simp [mainStartup, h2, h3]

/-- C5 witness: the three fatal startup failures at concrete collaborators. -/
theorem startup_errors_witness :
    mainStartup (.error (.IoError "io")) (fun c => .ok (buildMqttOptions c)) (fun a => .ok a)
      = .Terminated "Failed to load configuration" ∧
    mainStartup (.ok ⟨⟨"broker", 1883, none, none, "homeassistant"⟩, ⟨"hci0", "active"⟩, ⟨"VIN123"⟩⟩)
        (fun _ => .error "connection refused") (fun a => .ok a)
      = .Terminated "Failed to initialize MQTT client" ∧
    mainStartup (.ok ⟨⟨"broker", 1883, none, none, "homeassistant"⟩, ⟨"hci0", "active"⟩, ⟨"VIN123"⟩⟩)
        (fun c => .ok (buildMqttOptions c)) (fun _ => .error "adapter hci0 not found")
      = .Terminated "Failed to initialize BLE adapter" :=
  startup_errors_are_fatal (.IoError "io") (fun c => .ok (buildMqttOptions c)) (fun a => .ok a)
    ⟨⟨"broker", 1883, none, none, "homeassistant"⟩, ⟨"hci0", "active"⟩, ⟨"VIN123"⟩⟩
    (fun _ => .error "connection refused") (fun a => .ok a) "connection refused"
    ⟨⟨"broker", 1883, none, none, "homeassistant"⟩, ⟨"hci0", "active"⟩, ⟨"VIN123"⟩⟩
    (fun c => .ok (buildMqttOptions c)) (fun _ => .error "adapter hci0 not found")
    (buildMqttOptions ⟨"broker", 1883, none, none, "homeassistant"⟩) "adapter hci0 not found"
    rfl rfl rfl

/-- C6 counterexample: an error from the spawned MQTT event loop is printed to
stderr and the loop breaks; no error value is propagated to any caller as a
typed result, contradicting the claim at this concrete input. -/
theorem event_loop_error_swallowed :
    (eventLoopStep (.error "connection reset by peer")).propagatedError = none ∧
    (eventLoopStep (.error "connection reset by peer")).breaksLoop = true :=
  ⟨rfl, rfl⟩

/-- C6 (amended): an error polled by the spawned MQTT event loop is printed to
stderr and the loop exits, and no iteration of the event loop, on success or
error, propagates an error to a caller as a typed result. -/
theorem event_loop_never_propagates (e : String) (polled : Except String MqttIncoming) :
    eventLoopStep (.error e)
      = { action := .printToStderrAndBreak e, breaksLoop := true, propagatedError := none } ∧
    (eventLoopStep polled).propagatedError = none := by
  refine ⟨rfl, ?_⟩
  cases polled with
  | error e => rfl
  | ok ev => cases ev <;> rfl

/-- C7 counterexample: `publish_discovery` assembles the published topic from
the configured discovery prefix and its component and name arguments: at this
concrete input the published topic is the internally formatted string and is
none of the strings the caller supplied. -/
theorem discovery_topic_built_in_core :
    (publish_discovery ⟨"broker", 1883, none, none, "homeassistant"⟩ "lock" "doors" "on").topic
      = "homeassistant/lock/doors/config" ∧
    "homeassistant/lock/doors/config" ≠ "lock" ∧
    "homeassistant/lock/doors/config" ≠ "doors" ∧
    "homeassistant/lock/doors/config" ≠ "on" := by
  refine ⟨rfl, ?_, ?_, ?_⟩ <;> decide

/-- C7 (amended): `publish_state` and `subscribe_to_commands` use the
caller-supplied topic unchanged, but `publish_discovery` itself builds the
discovery topic as prefix/component/name/config from the configured discovery
prefix and its arguments. -/
theorem topic_construction_behavior (config : MqttConfig)
    (component name payloadJson topic payload sub : String) :
    (publish_discovery config component name payloadJson).topic
      = MqttConfig.discovery_prefix config ++ "/" ++ component ++ "/" ++ name ++ "/config" ∧
    (publish_state topic payload).topic = topic ∧
    (subscribe_to_commands sub).topic = sub :=
  ⟨rfl, rfl, rfl⟩

/-- C8: `MqttClient::new` places credentials in the connection options exactly
when the configured username is present; with a username and no password the
empty string is used as the password; with no username the options carry no
credentials, so a configured password is never transmitted. -/
theorem credentials_set_iff_username (c0 c1 c2 : MqttConfig) (u : String)
    (h1 : c1.username = some u) (h2 : c1.password = none) (h3 : c2.username = none) :
    ((buildMqttOptions c0).credentials.isSome ↔ c0.username.isSome) ∧
    (buildMqttOptions c1).credentials = some (u, "") ∧
    (buildMqttOptions c2).credentials = none := by
  refine ⟨?_, ?_, ?_⟩
  · cases h : c0.username <;> simp [buildMqttOptions, h]
  · simp [buildMqttOptions, h1, h2]
  · simp [buildMqttOptions, h3]

/-- C8 witness: a config with username and no password yields the empty-string
password; a config with a password but no username yields no credentials. -/
theorem credentials_witness :
    ((buildMqttOptions ⟨"broker", 1883, some "user", none, "homeassistant"⟩).credentials.isSome
      ↔ (MqttConfig.mk "broker" 1883 (some "user") none "homeassistant").username.isSome) ∧
    (buildMqttOptions ⟨"broker", 1883, some "user", none, "homeassistant"⟩).credentials
      = some ("user", "") ∧
    (buildMqttOptions ⟨"broker", 1883, none, some "secret", "homeassistant"⟩).credentials
      = none :=
  credentials_set_iff_username
    ⟨"broker", 1883, some "user", none, "homeassistant"⟩
    ⟨"broker", 1883, some "user", none, "homeassistant"⟩
    ⟨"broker", 1883, none, some "secret", "homeassistant"⟩ "user" rfl rfl rfl

/-- Helper: a bluetooth section without an adapter field fails to parse. -/
theorem parseBluetoothConfig_error_of_adapter (r : RawBluetoothConfig)
    (h : r.adapter = none) : parseBluetoothConfig r = .error (.JsonError "missing field adapter") := by
  simp [parseBluetoothConfig, h]

/-- Helper: a bluetooth section without a mode field fails to parse. -/
theorem parseBluetoothConfig_error_of_mode (r : RawBluetoothConfig)
    (h : r.mode = none) : ∃ e, parseBluetoothConfig r = .error e := by
  cases ha : r.adapter with
  | none => exact ⟨.JsonError "missing field adapter", by simp [parseBluetoothConfig, ha]⟩
  | some a => exact ⟨.JsonError "missing field mode", by simp [parseBluetoothConfig, ha, h]⟩

/-- Helper: a whole document whose bluetooth section is present but fails to
parse makes `parseConfig` fail. -/
theorem parseConfig_error_of_bluetooth (r : RawConfig) (rb : RawBluetoothConfig)
    (h1 : r.bluetooth = some rb) (eb : ConfigError)
    (h2 : parseBluetoothConfig rb = .error eb) : ∃ e, parseConfig r = .error e := by
  cases hm : r.mqtt with
  | none => exact ⟨.JsonError "missing field mqtt", by simp [parseConfig, hm]⟩
  | some rm =>
    cases hpm : parseMqttConfig rm with
    | error em => exact ⟨em, by simp [parseConfig, hm, hpm]⟩
    | ok m => exact ⟨eb, by simp [parseConfig, hm, hpm, h1, h2]⟩

/-- C9: serde gives `port` the default 1883 and `discovery_prefix` the default
"homeassistant" when those fields are absent, while `load_config` fails
whenever `host`, `adapter`, `mode`, or `vin` is absent or the document is not
valid JSON. -/
theorem config_defaults_and_required_fields
    (ra : RawMqttConfig) (ca : MqttConfig) (hap : ra.port = none)
    (hpa : parseMqttConfig ra = .ok ca)
    (rb : RawMqttConfig) (cb : MqttConfig) (hbp : RawMqttConfig.discovery_prefix rb = none)
    (hpb : parseMqttConfig rb = .ok cb)
    (rc : RawConfig) (rcm : RawMqttConfig) (hc1 : rc.mqtt = some rcm) (hc2 : rcm.host = none)
    (rd : RawConfig) (rdb : RawBluetoothConfig) (hd1 : rd.bluetooth = some rdb)
    (hd2 : rdb.adapter = none)
    (rm : RawConfig) (rmb : RawBluetoothConfig) (hm1 : rm.bluetooth = some rmb)
    (hm2 : rmb.mode = none)
    (rv : RawConfig) (rvv : RawVehicleConfig) (hv1 : rv.vehicle = some rvv)
    (hv2 : rvv.vin = none) :
    ca.port = 1883 ∧
    MqttConfig.discovery_prefix cb = "homeassistant" ∧
    (∃ e, load_config (.ok (some rc)) = .error e) ∧
    (∃ e, load_config (.ok (some rd)) = .error e) ∧
    (∃ e, load_config (.ok (some rm)) = .error e) ∧
    (∃ e, load_config (.ok (some rv)) = .error e) ∧
    load_config (.ok none) = .error (.JsonError "invalid JSON") := by
  refine ⟨?_, ?_, ?_, ?_, ?_, ?_, rfl⟩
  · cases hh : ra.host with
    | none => simp [parseMqttConfig, hh] at hpa
    | some h =>
      simp [parseMqttConfig, hh] at hpa
      rw [← hpa]
      simp [hap, default_port]
  · cases hh : rb.host with
    | none => simp [parseMqttConfig, hh] at hpb
    | some h =>
      simp [parseMqttConfig, hh] at hpb
      rw [← hpb]
      simp [hbp, default_discovery_prefix]
  · refine ⟨.JsonError "missing field host", ?_⟩
    simp [load_config, parseConfig, hc1, parseMqttConfig, hc2]
  · obtain ⟨e, he⟩ := parseConfig_error_of_bluetooth rd rdb hd1 _
      (parseBluetoothConfig_error_of_adapter rdb hd2)
    exact ⟨e, by simp [load_config, he]⟩
  · obtain ⟨eb, heb⟩ := parseBluetoothConfig_error_of_mode rmb hm2
    obtain ⟨e, he⟩ := parseConfig_error_of_bluetooth rm rmb hm1 eb heb
    exact ⟨e, by simp [load_config, he]⟩
  · cases hmq : rv.mqtt with
    | none => exact ⟨.JsonError "missing field mqtt", by simp [load_config, parseConfig, hmq]⟩
    | some rqm =>
      cases hpm : parseMqttConfig rqm with
      | error em => exact ⟨em, by simp [load_config, parseConfig, hmq, hpm]⟩
      | ok mm =>
        cases hbt : rv.bluetooth with
        | none =>
          exact ⟨.JsonError "missing field bluetooth",
            by simp [load_config, parseConfig, hmq, hpm, hbt]⟩
        | some rbt =>
          cases hpb2 : parseBluetoothConfig rbt with
          | error ebt => exact ⟨ebt, by simp [load_config, parseConfig, hmq, hpm, hbt, hpb2]⟩
          | ok bb =>
            refine ⟨.JsonError "missing field vin", ?_⟩
            simp [load_config, parseConfig, hmq, hpm, hbt, hpb2, hv1,
              parseVehicleConfig, hv2]

/-- C9 witness: concrete documents exercising the two defaults, the four
missing required fields, and the invalid-JSON case. -/
theorem config_defaults_witness :
    (MqttConfig.mk "broker" 1883 none none "hap").port = 1883 ∧
    MqttConfig.discovery_prefix (MqttConfig.mk "broker" 99 none none "homeassistant")
      = "homeassistant" ∧
    (∃ e, load_config (.ok (some ⟨some ⟨none, none, none, none, none⟩, none, none⟩))
      = .error e) ∧
    (∃ e, load_config (.ok (some ⟨some ⟨some "broker", none, none, none, none⟩,
      some ⟨none, some "active"⟩, none⟩)) = .error e) ∧
    (∃ e, load_config (.ok (some ⟨some ⟨some "broker", none, none, none, none⟩,
      some ⟨some "hci0", none⟩, none⟩)) = .error e) ∧
    (∃ e, load_config (.ok (some ⟨some ⟨some "broker", none, none, none, none⟩,
      some ⟨some "hci0", some "active"⟩, some ⟨none⟩⟩)) = .error e) ∧
    load_config (.ok none) = .error (.JsonError "invalid JSON") :=
  config_defaults_and_required_fields
    ⟨some "broker", none, none, none, some "hap"⟩ ⟨"broker", 1883, none, none, "hap"⟩ rfl rfl
    ⟨some "broker", some 99, none, none, none⟩ ⟨"broker", 99, none, none, "homeassistant"⟩ rfl rfl
    ⟨some ⟨none, none, none, none, none⟩, none, none⟩ ⟨none, none, none, none, none⟩ rfl rfl
    ⟨some ⟨some "broker", none, none, none, none⟩, some ⟨none, some "active"⟩, none⟩
      ⟨none, some "active"⟩ rfl rfl
    ⟨some ⟨some "broker", none, none, none, none⟩, some ⟨some "hci0", none⟩, none⟩
      ⟨some "hci0", none⟩ rfl rfl
    ⟨some ⟨some "broker", none, none, none, none⟩, some ⟨some "hci0", some "active"⟩,
      some ⟨none⟩⟩ ⟨none⟩ rfl rfl

/-- C10: `scan_for_devices` and `connect_to_device` are unconditional no-op
placeholders: for every adapter and every address they return `Ok(())`, leave
the adapter exactly as it was, and emit only their log line. -/
theorem ble_stubs_always_ok (a : BleAdapter) (address : String) :
    (scan_for_devices a).1 = a ∧
    (scan_for_devices a).2.1 = ["Starting BLE device scan..."] ∧
    (scan_for_devices a).2.2 = .ok () ∧
    (connect_to_device a address).1 = a ∧
    (connect_to_device a address).2.1 = ["Connecting to device: " ++ address] ∧
    (connect_to_device a address).2.2 = .ok () :=
  ⟨rfl, rfl, rfl, rfl, rfl, rfl⟩

/-- Helper: with a positive size, the split pieces concatenate back to the
original bytes whenever the fuel covers the length of the input. -/
theorem chunkFuel_flatten (maxSize : Nat) (hms : maxSize ≠ 0) :
    ∀ (fuel : Nat) (bytes : List Nat), bytes.length ≤ fuel →
      (chunkFuel maxSize fuel bytes).flatten = bytes := by
  intro fuel
  induction fuel with
  | zero =>
    intro bytes hb
    have hnil : bytes = [] := List.eq_nil_of_length_eq_zero (Nat.le_zero.mp hb)
    subst hnil; rfl
  | succ fuel ih =>
    intro bytes hb
    cases bytes with
    | nil => rfl
    | cons b bs =>
      have hdrop : ((b :: bs).drop maxSize).length ≤ fuel := by
        simp only [List.length_drop, List.length_cons] at *
        omega
      show ((b :: bs).take maxSize :: chunkFuel maxSize fuel ((b :: bs).drop maxSize)).flatten
        = b :: bs
      rw [List.flatten_cons, ih _ hdrop, List.take_append_drop]

/-- Helper: with a positive size, every piece produced by the splitter is
nonempty. -/
theorem chunkFuel_ne_nil (maxSize : Nat) (hms : maxSize ≠ 0) :
    ∀ (fuel : Nat) (bytes c : List Nat), c ∈ chunkFuel maxSize fuel bytes → c ≠ [] := by
  intro fuel
  induction fuel with
  | zero => intro bytes c hc; simp [chunkFuel] at hc
  | succ fuel ih =>
    intro bytes c hc
    cases bytes with
    | nil => simp [chunkFuel] at hc
    | cons b bs =>
      rcases List.mem_cons.mp hc with h | h
      · subst h
        cases maxSize with
        | zero => exact absurd rfl hms
        | succ k => simp
      · exact ih _ _ h

/-- Helper: the pieces of any message concatenate back to the message. -/
theorem chunksOf_flatten (maxSize : Nat) (hms : maxSize ≠ 0) (bytes : List Nat) :
    (chunksOf maxSize bytes).flatten = bytes := by
  cases bytes with
  | nil => rfl
  | cons b bs => exact chunkFuel_flatten maxSize hms _ _ (Nat.le_refl _)

/-- Helper: every message yields at least one piece. -/
theorem chunksOf_length_pos (maxSize : Nat) (bytes : List Nat) :
    0 < (chunksOf maxSize bytes).length := by
  cases bytes with
  | nil => simp [chunksOf]
  | cons b bs =>
    show 0 < (chunkFuel maxSize (bs.length + 1) (b :: bs)).length
    simp [chunkFuel]

/-- Helper: a nonempty message with several pieces has only nonempty pieces. -/
theorem chunksOf_ne_nil (maxSize : Nat) (hms : maxSize ≠ 0) (bytes : List Nat)
    (hlen : 1 < (chunksOf maxSize bytes).length) :
    ∀ c ∈ chunksOf maxSize bytes, c ≠ [] := by
  cases bytes with
  | nil => simp [chunksOf] at hlen
  | cons b bs =>
    intro c hc
    exact chunkFuel_ne_nil maxSize hms _ _ _ hc

/-- Helper: indexing the pieces preserves their number. -/
theorem tagFrags_length (total : Nat) :
    ∀ (ds : List (List Nat)) (i : Nat), (tagFrags total i ds).length = ds.length := by
  intro ds
  induction ds with
  | nil => intro i; rfl
  | cons d ds ih => intro i; simp [tagFrags, ih]

/-- Helper: the indices attached by `tagFrags` are the consecutive range
starting at the initial index. -/
theorem tagFrags_map_index (total : Nat) :
    ∀ (ds : List (List Nat)) (i : Nat),
      (tagFrags total i ds).map Fragment.index = List.range' i ds.length := by
  intro ds
  induction ds with
  | nil => intro i; rfl
  | cons d ds ih =>
    intro i
    rw [List.length_cons, List.range'_succ]
    simp [tagFrags, ih]

/-- Helper: the fragment carrying the k-th piece is among the indexed
fragments. -/
theorem tagFrags_mem (total : Nat) :
    ∀ (ds : List (List Nat)) (i k : Nat) (hk : k < ds.length),
      (⟨i + k, if i + k = 0 then some total else none, ds.get ⟨k, hk⟩⟩ : Fragment)
        ∈ tagFrags total i ds := by
  intro ds
  induction ds with
  | nil => intro i k hk; simp at hk
  | cons d ds ih =>
    intro i k hk
    cases k with
    | zero => simp [tagFrags]
    | succ k =>
      have hk' : k < ds.length := by simpa using hk
      have := ih (i + 1) k hk'
      refine List.mem_cons_of_mem _ ?_
      have harith : i + 1 + k = i + (k + 1) := by omega
      simpa [harith] using this

/-- Helper: in a buffer whose fragment indices are distinct, lookup by the
index of a buffered fragment returns that fragment. -/
theorem findFrag_eq_some_of_mem (l : List Fragment)
    (hnd : (l.map Fragment.index).Nodup) (g : Fragment) (hg : g ∈ l) :
    findFrag l g.index = some g := by
  have hs : (l.find? (fun f => f.index == g.index)).isSome := by
    rw [List.find?_isSome]
    exact ⟨g, hg, by simp⟩
  obtain ⟨f, hf⟩ := Option.isSome_iff_exists.mp hs
  have hpf : f.index = g.index := by simpa using List.find?_some hf
  have hmf : f ∈ l := List.mem_of_find?_eq_some hf
  have hfg : f = g := List.inj_on_of_nodup_map hnd hmf hg hpf
  rw [findFrag, hf, hfg]

/-- Helper: lookup by an index that no buffered fragment carries fails. -/
theorem findFrag_eq_none (l : List Fragment) (i : Nat)
    (h : ∀ f ∈ l, f.index ≠ i) : findFrag l i = none := by
  rw [findFrag, List.find?_eq_none]
  intro f hf
  simpa using h f hf

/-- Helper: when every expected index is buffered, gathering returns the data
in index order. -/
theorem gather_eq_map (l : List Fragment) (d : Nat → List Nat) :
    ∀ n : Nat, (∀ k, k < n → (findFrag l k).map Fragment.data = some (d k)) →
      gather l n = some ((List.range n).map d) := by
  intro n
  induction n with
  | zero => intro _; rfl
  | succ n ih =>
    intro h
    have h1 := ih (fun k hk => h k (Nat.lt_succ_of_lt hk))
    have h2 := h n (Nat.lt_succ_self n)
    obtain ⟨f, hf⟩ : ∃ f, findFrag l n = some f := by
      cases hfind : findFrag l n with
      | none => rw [hfind] at h2; simp at h2
      | some f => exact ⟨f, rfl⟩
    have hfd : f.data = d n := by
      rw [hf] at h2; simpa using h2
    rw [List.range_succ, List.map_append]
    simp [gather, h1, hf, hfd]

/-- Helper: gathering fails when some expected index is not buffered. -/
theorem gather_eq_none_of_missing (l : List Fragment) (k : Nat)
    (hfind : findFrag l k = none) :
    ∀ n : Nat, k < n → gather l n = none := by
  intro n
  induction n with
  | zero => intro h; omega
  | succ n ih =>
    intro hk
    by_cases hkn : k = n
    · have hfind2 : findFrag l n = none := hkn ▸ hfind
      cases hg : gather l n <;> simp [gather, hg, hfind2]
    · have hlt : k < n := by omega
      simp [gather, ih hlt]

/-- Helper: a buffer with distinct indices holding, for every k below the
piece count, the fragment carrying the k-th piece, reassembles to the
concatenation of the pieces. -/
theorem reassemble_of_complete (bytes : List Nat) (cs : List (List Nat))
    (hflat : cs.flatten = bytes) (hpos : 0 < cs.length) (l : List Fragment)
    (hnd : (l.map Fragment.index).Nodup)
    (hlen : l.length = cs.length)
    (hmem : ∀ k, ∀ hk : k < cs.length,
      (⟨k, if k = 0 then some bytes.length else none, cs.get ⟨k, hk⟩⟩ : Fragment) ∈ l) :
    reassemble l = some bytes := by
  have hfind : ∀ k, ∀ hk : k < cs.length,
      findFrag l k = some ⟨k, if k = 0 then some bytes.length else none, cs.get ⟨k, hk⟩⟩ := by
    intro k hk
    exact findFrag_eq_some_of_mem l hnd _ (hmem k hk)
  have hfind0 : findFrag l 0 = some ⟨0, some bytes.length, cs.get ⟨0, hpos⟩⟩ := by
    simpa using hfind 0 hpos
  have hgather : gather l l.length = some ((List.range cs.length).map (fun k => cs.getD k [])) := by
    rw [hlen]
    refine gather_eq_map l (fun k => cs.getD k []) cs.length ?_
    intro k hk
    rw [hfind k hk]
    simp [List.getD_eq_getElem?_getD, List.getElem?_eq_getElem hk]
  have hmapeq : (List.range cs.length).map (fun k => cs.getD k []) = cs := by
    apply List.ext_getElem
    · simp
    · intro i h1 h2
      simp [List.getD_eq_getElem?_getD, List.getElem?_eq_getElem h2]
  rw [reassemble, hfind0]
  simp only [hgather, hmapeq, hflat, if_true]

/-- Helper: a buffer with distinct indices holding every piece-carrying
fragment except the one with index j, and nothing with index j, reassembles to
nothing. -/
theorem reassemble_none_of_missing (bytes : List Nat) (cs : List (List Nat))
    (hflat : cs.flatten = bytes) (j : Nat) (hj : j < cs.length)
    (hne : 1 < cs.length → ∀ c ∈ cs, c ≠ []) (l : List Fragment)
    (hnd : (l.map Fragment.index).Nodup)
    (hlen : l.length = cs.length - 1)
    (hmem : ∀ k, ∀ hk : k < cs.length, k ≠ j →
      (⟨k, if k = 0 then some bytes.length else none, cs.get ⟨k, hk⟩⟩ : Fragment) ∈ l)
    (hnotmem : ∀ g ∈ l, g.index ≠ j) :
    reassemble l = none := by
  by_cases hj0 : j = 0
  · subst hj0
    have hfind0 : findFrag l 0 = none := findFrag_eq_none l 0 hnotmem
    rw [reassemble, hfind0]
  · have hpos : 0 < cs.length := by omega
    have hfind0 : findFrag l 0 = some ⟨0, some bytes.length, cs.get ⟨0, hpos⟩⟩ := by
      have := hmem 0 hpos (by omega)
      simpa using findFrag_eq_some_of_mem l hnd _ this
    by_cases hjlast : j = cs.length - 1
    · -- the missing fragment is the last one: gathering succeeds on the
      -- first pieces, but the accumulated length falls short of the total
      have hn2 : 1 < cs.length := by omega
      have hfind : ∀ k, k < cs.length - 1 →
          (findFrag l k).map Fragment.data = some (cs.getD k []) := by
        intro k hk
        have hkcs : k < cs.length := by omega
        have hkj : k ≠ j := by omega
        rw [findFrag_eq_some_of_mem l hnd _ (hmem k hkcs hkj)]
        simp [List.getD_eq_getElem?_getD, List.getElem?_eq_getElem hkcs]
      have hgather : gather l l.length
          = some ((List.range (cs.length - 1)).map (fun k => cs.getD k [])) := by
        rw [hlen]
        exact gather_eq_map l (fun k => cs.getD k []) (cs.length - 1) hfind
      have hmapeq : (List.range (cs.length - 1)).map (fun k => cs.getD k [])
          = cs.take (cs.length - 1) := by
        apply List.ext_getElem
        · rw [List.length_map, List.length_range, List.length_take]
          omega
        · intro i h1 h2
          have hi : i < cs.length - 1 := by simpa using h1
          have hics : i < cs.length := by omega
          simp [List.getD_eq_getElem?_getD, List.getElem?_eq_getElem hics,
            List.getElem_take]
      have hshort : (cs.take (cs.length - 1)).flatten.length ≠ bytes.length := by
        have hsplit : cs.take (cs.length - 1) ++ cs.drop (cs.length - 1) = cs :=
          List.take_append_drop _ _
        have hdlen : (cs.drop (cs.length - 1)).length = 1 := by
          rw [List.length_drop]; omega
        obtain ⟨c, hc⟩ := List.length_eq_one.mp hdlen
        have hcmem : c ∈ cs := by
          have : c ∈ cs.drop (cs.length - 1) := by simp [hc]
          exact List.drop_subset _ _ this
        have hcne : c ≠ [] := hne hn2 c hcmem
        have hclen : 0 < c.length := List.length_pos.mpr hcne
        have hflatlen : (cs.take (cs.length - 1)).flatten.length + c.length = bytes.length := by
          have := congrArg (fun t => t.flatten.length) hsplit
          simpa [hc, hflat] using this
        omega
      rw [reassemble, hfind0]
      simp only [hgather, hmapeq, if_neg hshort]
    · -- the missing fragment is an inner one: gathering fails outright
      have hfindj : findFrag l j = none := findFrag_eq_none l j hnotmem
      have hjlt : j < cs.length - 1 := by omega
      have hgather : gather l l.length = none := by
        rw [hlen]
        exact gather_eq_none_of_missing l j hfindj (cs.length - 1) hjlt
      rw [reassemble, hfind0]
      simp only [hgather]

/-- C4: fragmenting any byte sequence by any positive maximum single-write
size and reassembling the fragments presented in any order yields the original
bytes; with any one fragment missing, reassembly of the remaining fragments in
any order never completes and delivers nothing upstream. -/
theorem fragment_reassemble_roundtrip_and_missing
    (maxSize : Nat) (bytes : List Nat) (hms : 0 < maxSize) :
    (∀ l : List Fragment, l.Perm (fragmentMsg maxSize bytes) → reassemble l = some bytes) ∧
    (∀ f ∈ fragmentMsg maxSize bytes, ∀ l : List Fragment,
      l.Perm ((fragmentMsg maxSize bytes).erase f) → reassemble l = none) := by
  have hms2 : maxSize ≠ 0 := Nat.pos_iff_ne_zero.mp hms
  have hflat : (chunksOf maxSize bytes).flatten = bytes := chunksOf_flatten maxSize hms2 bytes
  have hpos : 0 < (chunksOf maxSize bytes).length := chunksOf_length_pos maxSize bytes
  have hFidx : (fragmentMsg maxSize bytes).map Fragment.index
      = List.range' 0 (chunksOf maxSize bytes).length :=
    tagFrags_map_index bytes.length (chunksOf maxSize bytes) 0
  have hFnodup : ((fragmentMsg maxSize bytes).map Fragment.index).Nodup := by
    rw [hFidx]; exact List.nodup_range' 0 (chunksOf maxSize bytes).length
  have hFlen : (fragmentMsg maxSize bytes).length = (chunksOf maxSize bytes).length :=
    tagFrags_length bytes.length (chunksOf maxSize bytes) 0
  have hgmem : ∀ k, ∀ hk : k < (chunksOf maxSize bytes).length,
      (⟨k, if k = 0 then some bytes.length else none,
        (chunksOf maxSize bytes).get ⟨k, hk⟩⟩ : Fragment) ∈ fragmentMsg maxSize bytes := by
    intro k hk
    simpa using tagFrags_mem bytes.length (chunksOf maxSize bytes) 0 k hk
  constructor
  · intro l hp
    refine reassemble_of_complete bytes (chunksOf maxSize bytes) hflat hpos l ?_ ?_ ?_
    · exact ((hp.map Fragment.index).nodup_iff).mpr hFnodup
    · exact hp.length_eq.trans hFlen
    · intro k hk
      exact hp.mem_iff.mpr (hgmem k hk)
  · intro f hf l hp
    have hj : f.index < (chunksOf maxSize bytes).length := by
      have hm : f.index ∈ (fragmentMsg maxSize bytes).map Fragment.index :=
        List.mem_map_of_mem Fragment.index hf
      rw [hFidx] at hm
      obtain ⟨i, hi, hieq⟩ := List.mem_range'.mp hm
      omega
    have hFnd : (fragmentMsg maxSize bytes).Nodup := hFnodup.of_map
    have hnotmem : ∀ g ∈ l, g.index ≠ f.index := by
      intro g hg hgi
      have hgE : g ∈ (fragmentMsg maxSize bytes).erase f := hp.mem_iff.mp hg
      have hgne : g ≠ f ∧ g ∈ fragmentMsg maxSize bytes := (hFnd.mem_erase_iff).mp hgE
      exact hgne.1 (List.inj_on_of_nodup_map hFnodup hgne.2 hf hgi)
    refine reassemble_none_of_missing bytes (chunksOf maxSize bytes) hflat f.index hj
      (fun h2 => chunksOf_ne_nil maxSize hms2 bytes h2) l ?_ ?_ ?_ hnotmem
    · have hEsub : List.Sublist (((fragmentMsg maxSize bytes).erase f).map Fragment.index)
          ((fragmentMsg maxSize bytes).map Fragment.index) :=
        (List.erase_sublist f _).map Fragment.index
      exact ((hp.map Fragment.index).nodup_iff).mpr (List.Nodup.sublist hEsub hFnodup)
    · have hElen : ((fragmentMsg maxSize bytes).erase f).length
          = (chunksOf maxSize bytes).length - 1 := by
        rw [List.length_erase_of_mem hf, hFlen]
      exact hp.length_eq.trans hElen
    · intro k hk hkj
      have hgk := hgmem k hk
      have hgkne : (⟨k, if k = 0 then some bytes.length else none,
          (chunksOf maxSize bytes).get ⟨k, hk⟩⟩ : Fragment) ≠ f := by
        intro he
        exact hkj (by simpa using congrArg Fragment.index he)
      exact hp.mem_iff.mpr ((hFnd.mem_erase_iff).mpr ⟨hgkne, hgk⟩)

/-- C4 witness: a three-byte message split at size two round-trips through an
out-of-order two-fragment buffer, and with its last fragment removed,
reassembly delivers nothing. -/
theorem fragment_reassemble_witness :
    0 < 2 ∧
    reassemble [⟨1, none, [3]⟩, ⟨0, some 3, [1, 2]⟩] = some [1, 2, 3] ∧
    reassemble [⟨0, some 3, [1, 2]⟩] = none :=
  ⟨by decide,
   (fragment_reassemble_roundtrip_and_missing 2 [1, 2, 3] (by decide)).1
     [⟨1, none, [3]⟩, ⟨0, some 3, [1, 2]⟩] (by decide),
   (fragment_reassemble_roundtrip_and_missing 2 [1, 2, 3] (by decide)).2
     ⟨1, none, [3]⟩ (by decide) [⟨0, some 3, [1, 2]⟩] (by decide)⟩

end HassTeslaBle
